import Mathlib

/-!
# Shallow embedding of the OrderBook matching and settlement engine

This file embeds the order-submission, cancellation and burn endpoints of the
repository (the Express route handlers over a SQL store) as pure Lean
functions over an explicit exchange state, and proves or refutes the frozen
claims about them.

Modelling conventions:
* Money (`cash_balance`, prices) is `DECIMAL(15,2)` in the schema and every
  monetary expression in the handlers is a sum, difference or product
  `price * quantity`; we model money as `Int` (fixed-point units), which is
  exact for all operations the code performs.
* The `users.cash_balance` column and the `positions` table are modelled as
  total functions (`Nat → Int`, `Nat → Nat → Int`); a missing position row is
  identified with quantity 0, which is observationally equivalent for every
  handler embedded here (each reads a missing row as 0, and
  `DELETE FROM positions WHERE quantity = 0` becomes the identity).
* SQL `SELECT ... ORDER BY price ASC, id ASC FOR UPDATE` becomes an
  insertion sort of the filtered order list by the corresponding linear key.
* Each HTTP transaction is one pure function `State → Result × State`;
  a rejection (4xx) returns the state unchanged, `conn.rollback()` returns
  the state at the start of the transaction.
-/

namespace OrderBook

/-- JavaScript `toLowerCase` on the strings the handlers compare. -/
def jsLower (s : String) : String := String.mk (s.data.map Char.toLower)

inductive Side where
  | buy
  | sell
deriving DecidableEq, Repr

def Side.opposite : Side → Side
  | .buy => .sell
  | .sell => .buy

inductive OrdStatus where
  | OPEN
  | FILLED
  | CANCELLED
deriving DecidableEq, Repr

/-- A row of the `orders` table. -/
structure Order where
  id : Nat
  userId : Nat
  symbolId : Nat
  side : Side
  price : Int
  quantity : Nat
  status : OrdStatus
deriving DecidableEq, Repr

/-- A row of the `trades` table (append-only). -/
structure Trade where
  symbolId : Nat
  price : Int
  quantity : Nat
  buyOrderId : Option Nat
  sellOrderId : Option Nat
  buyUserId : Nat
  sellUserId : Nat
  takerSide : Side
deriving DecidableEq, Repr

/-- A row of the `symbols` table. -/
structure SymbolRec where
  id : Nat
  outstanding : Int
  lastPrice : Option Int
  prevPrice : Option Int
deriving DecidableEq, Repr

/-- An entry of the `tradesExecuted` response array: `{price, quantity}`. -/
structure Exec where
  price : Int
  quantity : Nat
deriving DecidableEq, Repr

/-- The mutable store the handlers read and write. -/
structure ExchangeState where
  cash : Nat → Int
  pos : Nat → Nat → Int
  symbols : List SymbolRec
  orders : List Order
  trades : List Trade
  nextOrderId : Nat

/-- `UPDATE users SET cash_balance = cash_balance + d WHERE id = u`. -/
def adjCash (st : ExchangeState) (u : Nat) (d : Int) : ExchangeState :=
  { st with cash := fun v => if v = u then st.cash v + d else st.cash v }

/-- `INSERT ... ON DUPLICATE KEY UPDATE quantity = quantity + d` on `positions`. -/
def adjPos (st : ExchangeState) (u sym : Nat) (d : Int) : ExchangeState :=
  { st with pos := fun v s => if v = u ∧ s = sym then st.pos v s + d else st.pos v s }

/-- `UPDATE orders SET quantity = ?, status = ? WHERE id = ?`. -/
def updateOrder (st : ExchangeState) (oid : Nat) (q : Nat) (stat : OrdStatus) : ExchangeState :=
  { st with orders := st.orders.map fun o =>
      if o.id = oid then { o with quantity := q, status := stat } else o }

/-- `UPDATE orders SET quantity = ? WHERE id = ?` (status untouched). -/
def updateOrderQty (st : ExchangeState) (oid : Nat) (q : Nat) : ExchangeState :=
  { st with orders := st.orders.map fun o =>
      if o.id = oid then { o with quantity := q } else o }

/-- `UPDATE symbols SET prev_price = ?, last_price = ? WHERE id = ?`. -/
def setPrices (st : ExchangeState) (sym : Nat) (prevP lastP : Int) : ExchangeState :=
  { st with symbols := st.symbols.map fun s =>
      if s.id = sym then { s with prevPrice := some prevP, lastPrice := some lastP } else s }

/-- `SELECT ... FROM symbols WHERE id = ?`. -/
def findSymbol (st : ExchangeState) (sym : Nat) : Option SymbolRec :=
  st.symbols.find? fun s => s.id = sym

/-- The OPEN orders of one side of one symbol of the book. -/
def openOrders (st : ExchangeState) (sym : Nat) (sd : Side) : List Order :=
  st.orders.filter fun o => decide (o.symbolId = sym ∧ o.side = sd ∧ o.status = .OPEN)

/-- The `SELECT MIN(price)` query over OPEN sell orders of the symbol. -/
def bestAsk (st : ExchangeState) (sym : Nat) : Option Int :=
  ((openOrders st sym .sell).map (fun o => o.price)).min?

/-- The `SELECT MAX(price)` query over OPEN buy orders of the symbol. -/
def bestBid (st : ExchangeState) (sym : Nat) : Option Int :=
  ((openOrders st sym .buy).map (fun o => o.price)).max?

/-- The `ORDER BY` key of the matching queries: for an incoming buy the
opposite (sell) side is read `price ASC, id ASC`; for an incoming sell the
opposite (buy) side is read `price DESC, id ASC`. -/
def prio (takerSide : Side) (a b : Order) : Prop :=
  match takerSide with
  | .buy => a.price < b.price ∨ (a.price = b.price ∧ a.id ≤ b.id)
  | .sell => b.price < a.price ∨ (a.price = b.price ∧ a.id ≤ b.id)

instance (takerSide : Side) : DecidableRel (prio takerSide) := fun a b => by
  cases takerSide <;> simp only [prio] <;> infer_instance

instance (takerSide : Side) : IsTotal Order (prio takerSide) where
  total a b := by cases takerSide <;> simp only [prio] <;> omega

instance (takerSide : Side) : IsTrans Order (prio takerSide) where
  trans a b c := by cases takerSide <;> simp only [prio] <;> omega

/-- The market-order matching query: every opposite-side OPEN order, in
priority order (no price bound). -/
def marketCandidates (st : ExchangeState) (sym : Nat) (takerSide : Side) : List Order :=
  (openOrders st sym takerSide.opposite).insertionSort (prio takerSide)

/-- The limit-order matching query: opposite-side OPEN orders that cross the
limit price (`price <= ?` for a buy taker, `price >= ?` for a sell taker),
in priority order. -/
def limitCandidates (st : ExchangeState) (sym : Nat) (takerSide : Side) (p : Int) :
    List Order :=
  ((openOrders st sym takerSide.opposite).filter fun o =>
      match takerSide with
      | .buy => decide (o.price ≤ p)
      | .sell => decide (p ≤ o.price)).insertionSort (prio takerSide)

inductive Reject where
  | invalidParams
  | invalidSide
  | invalidPrice
  | crossesBook
  | symbolNotFound
  | insufficientFunds
  | insufficientShares
  | insufficientFundsShort
  | noLiquidity
deriving DecidableEq, Repr

inductive RespStatus where
  | FILLED
  | PARTIAL
  | OPEN
deriving DecidableEq, Repr

inductive SubmitResult where
  | rejected (r : Reject)
  | accepted (status : RespStatus) (tradesExecuted : List Exec)
deriving DecidableEq, Repr

/-- The raw request body of `POST /api/orders` (after `parseInt` of the
numeric fields): `{ symbol_id, side, price, quantity, type }`. -/
structure OrderReq where
  symbolId : Nat
  side : String
  price : Option Int
  quantity : Int
  otype : Option String
deriving DecidableEq, Repr

/-- `normalizeType`: default to limit when the field is absent or the
empty string, otherwise lowercase it. -/
def normalizeType (t : Option String) : String :=
  match t with
  | none => "limit"
  | some s => if s = "" then "limit" else jsLower s

/-- The request after the validation phase of the order submission handler. -/
structure ValidReq where
  symbolId : Nat
  side : Side
  ty : String
  price : Option Int
  quantity : Nat
deriving DecidableEq, Repr

/-- Input validation of the order submission handler (lines before the cross check):
falsy `symbol_id`/`quantity`, non-positive quantity, bad side, and the price
field (required positive for limit orders, discarded to null otherwise). -/
def validate (req : OrderReq) : Except Reject ValidReq :=
  let side := jsLower req.side
  let ty := normalizeType req.otype
  if req.symbolId = 0 ∨ side = "" ∨ req.quantity ≤ 0 then .error .invalidParams
  else if side = "buy" ∨ side = "sell" then
    if ty = "limit" then
      match req.price with
      | none => .error .invalidPrice
      | some p =>
        if p ≤ 0 then .error .invalidPrice
        else .ok { symbolId := req.symbolId,
                   side := if side = "buy" then .buy else .sell,
                   ty := ty, price := some p, quantity := req.quantity.toNat }
    else
      .ok { symbolId := req.symbolId,
            side := if side = "buy" then .buy else .sell,
            ty := ty, price := none, quantity := req.quantity.toNat }
  else .error .invalidSide

/-- Maker–maker cross prevention: a limit buy at `p ≥ bestAsk` or a limit
sell at `p ≤ bestBid` is rejected before anything is written. -/
def crossCheck (st : ExchangeState) (v : ValidReq) : Option Reject :=
  if v.ty = "limit" then
    match v.side with
    | .buy =>
      match bestAsk st v.symbolId with
      | some a => if v.price.getD 0 ≥ a then some .crossesBook else none
      | none => none
    | .sell =>
      match bestBid st v.symbolId with
      | some b => if v.price.getD 0 ≤ b then some .crossesBook else none
      | none => none
  else none

/-- Resource preconditions of the order submission handler: limit-buy cash check and
the sell-side short checks against outstanding shares and cash. -/
def resourceCheck (st : ExchangeState) (uid : Nat) (v : ValidReq) (sym : SymbolRec) :
    Option Reject :=
  let userCash := st.cash uid
  let userPos := st.pos uid v.symbolId
  match v.side with
  | .buy =>
    if v.ty = "limit" then
      if userCash < v.price.getD 0 * v.quantity then some .insufficientFunds else none
    else none
  | .sell =>
    if (v.quantity : Int) > userPos then
      let shortQty : Int := (v.quantity : Int) - (if userPos > 0 then userPos else 0)
      if shortQty > sym.outstanding then some .insufficientShares
      else
        let shortPrice := if v.ty = "limit" then v.price.getD 0 else sym.lastPrice.getD 0
        if userCash < shortPrice * shortQty then some .insufficientFundsShort else none
    else none

/-- Reservation phase (inside the transaction): a limit buy debits
`price * quantity` upfront; a limit sell with a short overhang debits the
collateral `price * shortQty`. Market orders reserve nothing. -/
def reservePhase (st : ExchangeState) (uid : Nat) (v : ValidReq) (userPos : Int) :
    ExchangeState :=
  if v.side = .buy ∧ v.ty = "limit" then
    adjCash st uid (-(v.price.getD 0 * v.quantity))
  else if v.side = .sell ∧ v.ty = "limit" ∧ (v.quantity : Int) > userPos then
    let shortQty : Int := (v.quantity : Int) - (if userPos > 0 then userPos else 0)
    let collateral := v.price.getD 0 * shortQty
    if collateral > 0 then adjCash st uid (-collateral) else st
  else st

/-- One pass of the market-order execution loop over the locked book rows.
Mirrors the `for (const order of bookOrders)` loop: stops when the remaining
quantity is 0 or (for a buy) the next fill is unaffordable; otherwise records
the trade, updates the maker order, moves cash and shares, and recurses. -/
def marketLoop (uid sym : Nat) (sd : Side) :
    List Order → ExchangeState → Nat → Int → List Exec →
    ExchangeState × Nat × List Exec
  | [], st, rem, _, execs => (st, rem, execs)
  | o :: rest, st, rem, cashAvail, execs =>
    if rem = 0 then (st, rem, execs)
    else
      let matchQty := min rem o.quantity
      let tradePrice := o.price
      let cost := tradePrice * matchQty
      if sd = .buy ∧ cashAvail < cost then (st, rem, execs)
      else
        let tr : Trade :=
          { symbolId := sym, price := tradePrice, quantity := matchQty,
            buyOrderId := if sd = .buy then none else some o.id,
            sellOrderId := if sd = .buy then some o.id else none,
            buyUserId := if sd = .buy then uid else o.userId,
            sellUserId := if sd = .buy then o.userId else uid,
            takerSide := sd }
        let st1 := { st with trades := st.trades ++ [tr] }
        let newQty := o.quantity - matchQty
        let st2 := updateOrder st1 o.id newQty (if newQty = 0 then .FILLED else .OPEN)
        let st3 :=
          if sd = .buy then
            adjPos (adjPos (adjCash (adjCash st2 uid (-cost)) o.userId cost)
              uid sym (matchQty : Int)) o.userId sym (-(matchQty : Int))
          else
            adjPos (adjPos (adjCash (adjCash st2 uid cost) o.userId (-cost))
              uid sym (-(matchQty : Int))) o.userId sym (matchQty : Int)
        marketLoop uid sym sd rest st3 (rem - matchQty)
          (if sd = .buy then cashAvail - cost else cashAvail)
          (execs ++ [⟨tradePrice, matchQty⟩])

/-- The taker loop of a freshly inserted limit buy against the crossing sell
orders. The buyer cash balance is NOT debited here (it was reserved upfront); only
the seller is credited. -/
def limitBuyLoop (uid sym newId : Nat) :
    List Order → ExchangeState → Nat → List Exec →
    ExchangeState × Nat × List Exec
  | [], st, rem, execs => (st, rem, execs)
  | o :: rest, st, rem, execs =>
    if rem = 0 then (st, rem, execs)
    else
      let matchQty := min rem o.quantity
      let tradePrice := o.price
      let tr : Trade :=
        { symbolId := sym, price := tradePrice, quantity := matchQty,
          buyOrderId := some newId, sellOrderId := some o.id,
          buyUserId := uid, sellUserId := o.userId, takerSide := .buy }
      let st1 := { st with trades := st.trades ++ [tr] }
      let newQty := o.quantity - matchQty
      let st2 := updateOrder st1 o.id newQty (if newQty = 0 then .FILLED else .OPEN)
      let st3 := adjCash (adjPos (adjPos st2 uid sym (matchQty : Int))
        o.userId sym (-(matchQty : Int))) o.userId (tradePrice * matchQty)
      limitBuyLoop uid sym newId rest st3 (rem - matchQty)
        (execs ++ [⟨tradePrice, matchQty⟩])

/-- The taker loop of a freshly inserted limit sell against the crossing buy
orders: the maker buyer is debited and the seller credited at the maker
price. -/
def limitSellLoop (uid sym newId : Nat) :
    List Order → ExchangeState → Nat → List Exec →
    ExchangeState × Nat × List Exec
  | [], st, rem, execs => (st, rem, execs)
  | o :: rest, st, rem, execs =>
    if rem = 0 then (st, rem, execs)
    else
      let matchQty := min rem o.quantity
      let tradePrice := o.price
      let tr : Trade :=
        { symbolId := sym, price := tradePrice, quantity := matchQty,
          buyOrderId := some o.id, sellOrderId := some newId,
          buyUserId := o.userId, sellUserId := uid, takerSide := .sell }
      let st1 := { st with trades := st.trades ++ [tr] }
      let newQty := o.quantity - matchQty
      let st2 := updateOrder st1 o.id newQty (if newQty = 0 then .FILLED else .OPEN)
      let st3 := adjCash (adjCash (adjPos (adjPos st2 o.userId sym (matchQty : Int))
        uid sym (-(matchQty : Int))) o.userId (-(tradePrice * matchQty)))
        uid (tradePrice * matchQty)
      limitSellLoop uid sym newId rest st3 (rem - matchQty)
        (execs ++ [⟨tradePrice, matchQty⟩])

/-- `tradesExecuted.reduce((sum, t) => sum + t.price * t.quantity, 0)`. -/
def sumSpent (execs : List Exec) : Int :=
  execs.foldl (fun s e => s + e.price * e.quantity) 0

/-- Price of the last executed fill (`tradesExecuted[length - 1].price`). -/
def lastExecPrice (execs : List Exec) : Int :=
  ((execs.getLast?).getD ⟨0, 0⟩).price

/-- The whole market-order execution loop applied to the locked book rows,
starting from the full requested quantity and the cash balance read before
the transaction. -/
def marketRun (st : ExchangeState) (uid : Nat) (v : ValidReq) (userCash : Int) :
    ExchangeState × Nat × List Exec :=
  marketLoop uid v.symbolId v.side (marketCandidates st v.symbolId v.side)
    st v.quantity userCash []

/-- The market-order branch of the submission handler (runs on the state at
the start of the transaction; zero fills roll the whole transaction back). -/
def doMarket (st : ExchangeState) (uid : Nat) (v : ValidReq) (sym : SymbolRec)
    (userCash : Int) : SubmitResult × ExchangeState :=
  let res := marketRun st uid v userCash
  let st2 := res.1
  let rem := res.2.1
  let execs := res.2.2
  if execs = [] then (.rejected .noLiquidity, st)
  else
    let lastP := lastExecPrice execs
    let prevP := sym.lastPrice.getD lastP
    let st3 := setPrices st2 v.symbolId prevP lastP
    (.accepted (if rem = 0 then .FILLED else .PARTIAL) execs, st3)

/-- Allocation and insertion of the new OPEN limit order row (the INSERT
INTO orders statement of the limit branch). -/
def insertNewOrder (st1 : ExchangeState) (uid : Nat) (v : ValidReq) : ExchangeState :=
  { st1 with
    orders := st1.orders ++
      [{ id := st1.nextOrderId, userId := uid, symbolId := v.symbolId, side := v.side,
         price := v.price.getD 0, quantity := v.quantity, status := .OPEN }],
    nextOrderId := st1.nextOrderId + 1 }

/-- The limit-order branch of the order submission handler: insert the order
OPEN, run the taker loop, update the order row, apply the limit-buy refund
and the short-collateral refund, stamp prices, and report the status. -/
def doLimit (st1 : ExchangeState) (uid : Nat) (v : ValidReq) (sym : SymbolRec)
    (userPos : Int) : SubmitResult × ExchangeState :=
  let p := v.price.getD 0
  let newId := st1.nextOrderId
  let st2 := insertNewOrder st1 uid v
  let res :=
    match v.side with
    | .buy => limitBuyLoop uid v.symbolId newId
        (limitCandidates st2 v.symbolId .buy p) st2 v.quantity []
    | .sell => limitSellLoop uid v.symbolId newId
        (limitCandidates st2 v.symbolId .sell p) st2 v.quantity []
  let st3 := res.1
  let rem := res.2.1
  let execs := res.2.2
  let st4 := if rem > 0 then updateOrderQty st3 newId rem else updateOrder st3 newId 0 .FILLED
  let st5 :=
    if v.side = .buy ∧ v.ty = "limit" ∧ rem < v.quantity then
      let totalSpent := sumSpent execs
      let refund := p * v.quantity - totalSpent
      if refund > 0 then adjCash st4 uid refund else st4
    else st4
  let st6 :=
    if v.side = .sell ∧ v.ty = "limit" ∧ (v.quantity : Int) > userPos then
      let remainingShortQty : Int :=
        (rem : Int) - (if userPos > 0
          then max 0 (userPos - ((v.quantity : Int) - (rem : Int))) else 0)
      let refundCollateral := p * (if remainingShortQty > 0 then remainingShortQty else 0)
      if refundCollateral > 0 then adjCash st5 uid refundCollateral else st5
    else st5
  let st7 :=
    if execs = [] then st6
    else
      let lastP := lastExecPrice execs
      let prevP := sym.lastPrice.getD lastP
      setPrices st6 v.symbolId prevP lastP
  let status :=
    if rem = 0 then RespStatus.FILLED
    else if rem < v.quantity then RespStatus.PARTIAL
    else RespStatus.OPEN
  (.accepted status execs, st7)

/-- `POST /api/orders`: the whole submission handler as one atomic function.
Rejections return the state unchanged (nothing was committed). -/
def placeOrder (st : ExchangeState) (uid : Nat) (req : OrderReq) :
    SubmitResult × ExchangeState :=
  match validate req with
  | .error r => (.rejected r, st)
  | .ok v =>
    match crossCheck st v with
    | some r => (.rejected r, st)
    | none =>
      match findSymbol st v.symbolId with
      | none => (.rejected .symbolNotFound, st)
      | some sym =>
        let userCash := st.cash uid
        let userPos := st.pos uid v.symbolId
        match resourceCheck st uid v sym with
        | some r => (.rejected r, st)
        | none =>
          let st1 := reservePhase st uid v userPos
          if v.ty = "market" then doMarket st1 uid v sym userCash
          else doLimit st1 uid v sym userPos

inductive CancelResult where
  | ok
  | notFoundOrClosed
deriving DecidableEq, Repr

/-- `DELETE /api/orders/:id`: cancel an OPEN order owned by the caller.
A buy order is refunded `price * quantity`; a sell order with remaining
quantity is refunded `price * quantity` as well (the handler refunds the
full remaining value, whether or not collateral was reserved). -/
def cancelOrder (st : ExchangeState) (uid orderId : Nat) :
    CancelResult × ExchangeState :=
  match st.orders.find? (fun o =>
      decide (o.id = orderId ∧ o.userId = uid ∧ o.status = .OPEN)) with
  | none => (.notFoundOrClosed, st)
  | some o =>
    let st1 :=
      match o.side with
      | .buy => adjCash st uid (o.price * o.quantity)
      | .sell => if o.quantity > 0 then adjCash st uid (o.price * o.quantity) else st
    (.ok, updateOrder st1 orderId 0 .CANCELLED)

inductive BurnResult where
  | ok
  | invalidQuantity
  | symbolNotFound
  | insufficientShares
deriving DecidableEq, Repr

/-- `POST /api/symbols/:id/burn`: refuse a non-positive quantity, an unknown
symbol, or a position below the quantity; otherwise subtract the quantity
from the manager position and from `outstanding_shares` (the handler never
compares the quantity against `outstanding_shares`). -/
def burn (st : ExchangeState) (uid symbolId : Nat) (qty : Int) :
    BurnResult × ExchangeState :=
  if qty ≤ 0 then (.invalidQuantity, st)
  else
    match findSymbol st symbolId with
    | none => (.symbolNotFound, st)
    | some _ =>
      if st.pos uid symbolId < qty then (.insufficientShares, st)
      else
        let st1 := adjPos st uid symbolId (-qty)
        let st2 := { st1 with symbols := st1.symbols.map fun s =>
          if s.id = symbolId then { s with outstanding := s.outstanding - qty } else s }
        (.ok, st2)


/-! ## Concrete scenario states used to settle the claims -/

/-- C1 scenario start: user 1 has 1000 cash and 5 shares of symbol 1. -/
def stSelfTrade : ExchangeState :=
  { cash := fun u => if u = 1 then 1000 else 0,
    pos := fun u s => if u = 1 ∧ s = 1 then 5 else 0,
    symbols := [{ id := 1, outstanding := 5, lastPrice := none, prevPrice := none }],
    orders := [], trades := [], nextOrderId := 1 }

/-- C1 step 1: user 1 posts a resting buy limit 5@90 (1000 − 450 reserved). -/
def selfTradeStep1 : SubmitResult × ExchangeState :=
  placeOrder stSelfTrade 1
    { symbolId := 1, side := "buy", price := some 90, quantity := 5, otype := some "limit" }

/-- C1 step 2: user 1 submits a market sell 5 that crosses the own resting buy. -/
def selfTradeStep2 : SubmitResult × ExchangeState :=
  placeOrder selfTradeStep1.2 1
    { symbolId := 1, side := "sell", price := none, quantity := 5, otype := some "market" }

/-- The single trade record the C1 self-cross appends. -/
def selfTradeRecord : Trade :=
  { symbolId := 1, price := 90, quantity := 5, buyOrderId := some 1,
    sellOrderId := none, buyUserId := 1, sellUserId := 1, takerSide := .sell }

/-- C2 scenario start: user 1 has 1000 cash; user 2 holds 1 share of symbol 1. -/
def stBuyLifecycle : ExchangeState :=
  { cash := fun u => if u = 1 then 1000 else 0,
    pos := fun u s => if u = 2 ∧ s = 1 then 1 else 0,
    symbols := [{ id := 1, outstanding := 1, lastPrice := none, prevPrice := none }],
    orders := [], trades := [], nextOrderId := 1 }

/-- C2 step 1: user 1 posts buy limit 2@100 (reserves 200). -/
def buyLifecycleStep1 : SubmitResult × ExchangeState :=
  placeOrder stBuyLifecycle 1
    { symbolId := 1, side := "buy", price := some 100, quantity := 2, otype := some "limit" }

/-- C2 step 2: user 2 market-sells 1 share into the resting buy (fill 1@100). -/
def buyLifecycleStep2 : SubmitResult × ExchangeState :=
  placeOrder buyLifecycleStep1.2 2
    { symbolId := 1, side := "sell", price := none, quantity := 1, otype := some "market" }

/-- C2 step 3: user 1 cancels the residual 1 of the resting buy. -/
def buyLifecycleStep3 : CancelResult × ExchangeState :=
  cancelOrder buyLifecycleStep2.2 1 1

/-- C3 scenario start: user 1 has exactly 100 cash; user 2 holds 1 share.
Every cash balance is non-negative. -/
def stNonNeg : ExchangeState :=
  { cash := fun u => if u = 1 then 100 else 0,
    pos := fun u s => if u = 2 ∧ s = 1 then 1 else 0,
    symbols := [{ id := 1, outstanding := 1, lastPrice := none, prevPrice := none }],
    orders := [], trades := [], nextOrderId := 1 }

/-- C3 step 1: user 1 posts buy limit 1@100 (reserves the entire balance). -/
def nonNegStep1 : SubmitResult × ExchangeState :=
  placeOrder stNonNeg 1
    { symbolId := 1, side := "buy", price := some 100, quantity := 1, otype := some "limit" }

/-- C3 step 2: user 2 market-sells 1 share into the resting buy. -/
def nonNegStep2 : SubmitResult × ExchangeState :=
  placeOrder nonNegStep1.2 2
    { symbolId := 1, side := "sell", price := none, quantity := 1, otype := some "market" }

/-- C4 scenario start: user 1 holds 10 shares of symbol 1 and 0 cash. -/
def stCoveredSell : ExchangeState :=
  { cash := fun _ => 0,
    pos := fun u s => if u = 1 ∧ s = 1 then 10 else 0,
    symbols := [{ id := 1, outstanding := 10, lastPrice := none, prevPrice := none }],
    orders := [], trades := [], nextOrderId := 1 }

/-- C4 step 1: user 1 posts a fully covered sell limit 5@100 (quantity 5 does
not exceed the position 10, so no collateral is reserved). -/
def coveredSellStep1 : SubmitResult × ExchangeState :=
  placeOrder stCoveredSell 1
    { symbolId := 1, side := "sell", price := some 100, quantity := 5, otype := some "limit" }

/-- C4 step 2: user 1 cancels the fully covered OPEN sell. -/
def coveredSellStep2 : CancelResult × ExchangeState :=
  cancelOrder coveredSellStep1.2 1 1

/-- C8 scenario: manager 1 holds 15 shares of symbol 1 while only 10 are
outstanding (reachable when other users are short 5 to the manager). -/
def stBurn : ExchangeState :=
  { cash := fun _ => 0,
    pos := fun u s => if u = 1 ∧ s = 1 then 15 else 0,
    symbols := [{ id := 1, outstanding := 10, lastPrice := none, prevPrice := none }],
    orders := [], trades := [], nextOrderId := 1 }

/-- C8: burning 15 shares when only 10 are outstanding. -/
def burnStep : BurnResult × ExchangeState := burn stBurn 1 1 15

/-- C5 witness scenario: user 9 has an OPEN sell limit 10@100 on symbol 1. -/
def stCross : ExchangeState :=
  { cash := fun _ => 10000,
    pos := fun u s => if u = 9 ∧ s = 1 then 100 else 0,
    symbols := [{ id := 1, outstanding := 100, lastPrice := none, prevPrice := none }],
    orders := [{ id := 1, userId := 9, symbolId := 1, side := .sell, price := 100,
                 quantity := 10, status := .OPEN }],
    trades := [], nextOrderId := 2 }

/-- C5 witness request: buy limit 5@100 (at the best ask). -/
def reqCross : OrderReq :=
  { symbolId := 1, side := "buy", price := some 100, quantity := 5, otype := some "limit" }

/-- C9 witness scenario: an empty book and a funded user 3. -/
def stFresh : ExchangeState :=
  { cash := fun u => if u = 3 then 1000 else 0,
    pos := fun _ _ => 0,
    symbols := [{ id := 1, outstanding := 0, lastPrice := none, prevPrice := none }],
    orders := [], trades := [], nextOrderId := 1 }

/-- C9 witness request: buy limit 2@10 on the empty book. -/
def reqFresh : OrderReq :=
  { symbolId := 1, side := "buy", price := some 10, quantity := 2, otype := some "limit" }

/-- C10 witness request: a market order submitted together with a price. -/
def reqMarketPriced : OrderReq :=
  { symbolId := 1, side := "sell", price := some 77, quantity := 1, otype := some "market" }

/-- C10 witness request: an absent type field and an absent price. -/
def reqNoType : OrderReq :=
  { symbolId := 1, side := "buy", price := none, quantity := 1, otype := none }

/-- C6 witness: a resting sell order at 100 with id 1. -/
def oPrioSell1 : Order :=
  { id := 1, userId := 9, symbolId := 1, side := .sell, price := 100,
    quantity := 3, status := .OPEN }

/-- C6 witness: a resting sell order at 100 with id 2. -/
def oPrioSell2 : Order :=
  { id := 2, userId := 9, symbolId := 1, side := .sell, price := 100,
    quantity := 4, status := .OPEN }

/-- C6 witness: a resting buy order at 90 with id 3. -/
def oPrioBuy : Order :=
  { id := 3, userId := 8, symbolId := 1, side := .buy, price := 90,
    quantity := 2, status := .OPEN }

/-- C6 witness scenario: a book with two same-priced sells and one buy. -/
def stPrio : ExchangeState :=
  { cash := fun _ => 10000,
    pos := fun _ _ => 0,
    symbols := [{ id := 1, outstanding := 100, lastPrice := none, prevPrice := none }],
    orders := [oPrioSell2, oPrioSell1, oPrioBuy],
    trades := [], nextOrderId := 4 }

/-- C7 witness scenario: symbol 1 with an empty book; user 4 has 50 cash. -/
def stNoLiq : ExchangeState :=
  { cash := fun u => if u = 4 then 50 else 0,
    pos := fun _ _ => 0,
    symbols := [{ id := 1, outstanding := 0, lastPrice := none, prevPrice := none }],
    orders := [], trades := [], nextOrderId := 1 }

/-- C7 witness request: market buy qty 1 against the empty book. -/
def reqNoLiq : OrderReq :=
  { symbolId := 1, side := "buy", price := none, quantity := 1, otype := some "market" }

/-- C7 witness: the validated form of the market buy request. -/
def vNoLiq : ValidReq :=
  { symbolId := 1, side := .buy, ty := "market", price := none, quantity := 1 }

/-- C7 witness: the symbol row of the no-liquidity scenario. -/
def symNoLiq : SymbolRec :=
  { id := 1, outstanding := 0, lastPrice := none, prevPrice := none }

/-- The best ask as the spec describes it: the minimum price among OPEN sell
orders for the symbol. -/
def IsBestAsk (st : ExchangeState) (sym : Nat) (a : Int) : Prop :=
  (∃ o ∈ openOrders st sym .sell, o.price = a) ∧
  ∀ o ∈ openOrders st sym .sell, a ≤ o.price

/-- The best bid as the spec describes it: the maximum price among OPEN buy
orders for the symbol. -/
def IsBestBid (st : ExchangeState) (sym : Nat) (b : Int) : Prop :=
  (∃ o ∈ openOrders st sym .buy, o.price = b) ∧
  ∀ o ∈ openOrders st sym .buy, o.price ≤ b

instance : Std.Antisymm (fun x1 x2 : Int => x1 ≤ x2) :=
  ⟨fun h h2 => le_antisymm h h2⟩

/-! ## Helper lemmas -/

theorem mem_openOrders {st : ExchangeState} {sym : Nat} {sd : Side} {o : Order} :
    o ∈ openOrders st sym sd ↔
      o ∈ st.orders ∧ o.symbolId = sym ∧ o.side = sd ∧ o.status = .OPEN := by
  simp [openOrders, List.mem_filter]

theorem bestAsk_eq_some_iff {st : ExchangeState} {sym : Nat} {a : Int} :
    bestAsk st sym = some a ↔ IsBestAsk st sym a := by
  unfold bestAsk IsBestAsk
  rw [List.min?_eq_some_iff (fun x => le_refl x) (fun x y => min_choice x y)
    (fun _ _ _ => le_min_iff)]
  simp [List.mem_map]

theorem bestBid_eq_some_iff {st : ExchangeState} {sym : Nat} {b : Int} :
    bestBid st sym = some b ↔ IsBestBid st sym b := by
  unfold bestBid IsBestBid
  rw [List.max?_eq_some_iff (fun x => le_refl x) (fun x y => max_choice x y)
    (fun _ _ _ => max_le_iff)]
  simp [List.mem_map]

theorem bestAsk_eq_none_iff {st : ExchangeState} {sym : Nat} :
    bestAsk st sym = none ↔ openOrders st sym .sell = [] := by
  unfold bestAsk
  rw [List.min?_eq_none_iff, List.map_eq_nil_iff]

theorem bestBid_eq_none_iff {st : ExchangeState} {sym : Nat} :
    bestBid st sym = none ↔ openOrders st sym .buy = [] := by
  unfold bestBid
  rw [List.max?_eq_none_iff, List.map_eq_nil_iff]

/-! ## Claim C1: self-trade neutrality -/

/-- C1: self-trade is NOT cash-neutral in the code. User 1 (1000 cash,
5 shares) posts buy limit 5@90 (450 reserved, cash 550) and then market-sells
5 into the own resting buy. A trade at the maker price 90 is recorded and the
last price is updated, and the position is unchanged, but the final cash is
550: the taker credit (+450) and the maker debit (−450) cancel, while the
450 reserved upfront for the resting buy is never returned, so the net cash
change for the crossed quantity including the reservation is −450, not 0 as
the claim states. -/
theorem selfTradeNotCashNeutral :
    selfTradeStep1.1 = .accepted .OPEN [] ∧
    selfTradeStep1.2.cash 1 = 550 ∧
    selfTradeStep2.1 = .accepted .FILLED [⟨90, 5⟩] ∧
    selfTradeStep2.2.trades = [selfTradeRecord] ∧
    (findSymbol selfTradeStep2.2 1).map (fun s => s.lastPrice) = some (some 90) ∧
    selfTradeStep2.2.pos 1 1 = stSelfTrade.pos 1 1 ∧
    stSelfTrade.cash 1 = 1000 ∧
    selfTradeStep2.2.cash 1 = 550 ∧
    selfTradeStep2.2.cash 1 ≠ stSelfTrade.cash 1 := by
  decide

/-! ## Claim C2: buy-limit lifecycle net cash -/

/-- C2: the lifecycle net cash of a partially filled and then cancelled buy
limit is NOT −Σ p·q in the code. User 1 (1000 cash) posts buy limit 2@100
(200 reserved); user 2 market-sells 1 (one fill 1@100, during which the
maker buyer is debited 100 again); user 1 cancels the residual 1 (refund
100). Final cash is 800: the net change is −200 = −2·Σ p·q, twice what the
claim states (−Σ p·q = −100), because the fill debits the reserved buyer a
second time. -/
theorem buyLifecycleDoubleCharge :
    buyLifecycleStep1.1 = .accepted .OPEN [] ∧
    buyLifecycleStep2.1 = .accepted .FILLED [⟨100, 1⟩] ∧
    buyLifecycleStep3.1 = .ok ∧
    stBuyLifecycle.cash 1 = 1000 ∧
    buyLifecycleStep3.2.cash 1 = 800 ∧
    sumSpent [⟨100, 1⟩] = 100 ∧
    buyLifecycleStep3.2.cash 1 ≠ stBuyLifecycle.cash 1 - 100 := by
  decide

/-! ## Claim C3: cash non-negativity -/

/-- C3: cash non-negativity is violated by the code. Starting from a state
where every balance is ≥ 0 (user 1 has exactly 100), user 1 posts buy limit
1@100 (accepted, the whole balance is reserved, cash 0) and user 2
market-sells 1 share into it (accepted and committed). The fill debits the
maker buyer 100 although the cash was already reserved, leaving user 1 with
a committed balance of −100 at rest. -/
theorem cashGoesNegative :
    (∀ u, 0 ≤ stNonNeg.cash u) ∧
    nonNegStep1.1 = .accepted .OPEN [] ∧
    nonNegStep2.1 = .accepted .FILLED [⟨100, 1⟩] ∧
    nonNegStep2.2.cash 1 = -100 ∧
    ¬ 0 ≤ nonNegStep2.2.cash 1 := by
  refine ⟨?_, by decide, by decide, by decide, by decide⟩
  intro u
  simp only [stNonNeg]
  split <;> norm_num

/-! ## Claim C4: sell-cancel refund -/

/-- C4 counterexample: cancelling a fully covered OPEN sell limit credits
price × remaining, not price × remaining_short = 0. User 1 holds 10 shares
and 0 cash, posts sell limit 5@100 (fully covered: no collateral is
reserved, cash stays 0), then cancels: the handler credits 100·5 = 500
although the claim says the credit is 0. -/
theorem coveredSellCancelCounterexample :
    coveredSellStep1.1 = .accepted .OPEN [] ∧
    coveredSellStep1.2.cash 1 = 0 ∧
    coveredSellStep2.1 = .ok ∧
    coveredSellStep2.2.cash 1 = 500 ∧
    coveredSellStep2.2.cash 1 ≠ 0 := by
  decide

/-- C4 amended: cancelling an OPEN sell order credits the owner exactly
price × remaining quantity, regardless of how much short collateral (if any)
was reserved at submission. -/
theorem cancelSellCreditsFullRemaining (st : ExchangeState) (uid oid : Nat) (o : Order)
    (hfind : st.orders.find?
      (fun o2 => decide (o2.id = oid ∧ o2.userId = uid ∧ o2.status = .OPEN)) = some o)
    (hsell : o.side = .sell) :
    (cancelOrder st uid oid).1 = .ok ∧
    (cancelOrder st uid oid).2.cash uid = st.cash uid + o.price * o.quantity := by
  unfold cancelOrder
  rw [hfind]
  dsimp only
  rw [hsell]
  dsimp only
  refine ⟨rfl, ?_⟩
  by_cases hq : o.quantity > 0
  · simp [hq, updateOrder, adjCash]
  · have hq0 : o.quantity = 0 := by omega
    simp [hq, hq0, updateOrder]

/-- C4 amended, witness: the covered-sell scenario instantiates the amended
cancellation theorem. -/
theorem cancelSellCreditsFullRemaining_witness :
    (cancelOrder coveredSellStep1.2 1 1).1 = .ok ∧
    (cancelOrder coveredSellStep1.2 1 1).2.cash 1 = coveredSellStep1.2.cash 1 + 100 * 5 := by
  have h := cancelSellCreditsFullRemaining coveredSellStep1.2 1 1
    { id := 1, userId := 1, symbolId := 1, side := .sell, price := 100,
      quantity := 5, status := .OPEN } (by decide) (by decide)
  exact h

/-! ## Claim C8: burn -/

/-- C8 counterexample: the burn handler never compares the quantity with
outstanding_shares. Manager 1 holds 15 shares of symbol 1 while only 10 are
outstanding (other users are short 5); burning 15 is accepted and leaves
outstanding_shares = −5 < 0, although the claim says the burn is refused
when outstanding < qty. -/
theorem burnOutstandingCounterexample :
    (findSymbol stBurn 1).map (fun s => s.outstanding) = some 10 ∧
    stBurn.pos 1 1 = 15 ∧
    burnStep.1 = .ok ∧
    (findSymbol burnStep.2 1).map (fun s => s.outstanding) = some (-5) := by
  decide

/-- Helper: find? on a mapped list whose mapping preserves the id field. -/
theorem find?_map_preserving (l : List SymbolRec) (sid : Nat) (f : SymbolRec → SymbolRec)
    (hf : ∀ s, (f s).id = s.id) :
    (l.map f).find? (fun s => decide (s.id = sid)) =
      (l.find? (fun s => decide (s.id = sid))).map f := by
  induction l with
  | nil => rfl
  | cons a t ih =>
    rw [List.map_cons, List.find?_cons, List.find?_cons]
    have hid : (f a).id = a.id := hf a
    by_cases h : a.id = sid
    · simp [hid, h]
    · simp [hid, h, ih]

/-- C8 amended: the burn handler refuses exactly when the quantity is not
positive, the symbol is unknown, or the manager position is below the
quantity (a missing position row reads as 0); the outstanding count is not
checked. When accepted it subtracts the quantity from both the manager
position and outstanding_shares — which can therefore become negative, as
the counterexample shows. -/
theorem burnCharacterization (st : ExchangeState) (uid symbolId : Nat) (qty : Int) :
    ((burn st uid symbolId qty).1 = .ok ↔
      0 < qty ∧ (findSymbol st symbolId).isSome ∧ qty ≤ st.pos uid symbolId) ∧
    ((burn st uid symbolId qty).1 = .ok →
      (burn st uid symbolId qty).2.pos uid symbolId = st.pos uid symbolId - qty ∧
      ∀ s, findSymbol st symbolId = some s →
        findSymbol (burn st uid symbolId qty).2 symbolId =
          some { s with outstanding := s.outstanding - qty }) ∧
    ((burn st uid symbolId qty).1 ≠ .ok → (burn st uid symbolId qty).2 = st) := by
  by_cases h1 : qty ≤ 0
  · have hb : burn st uid symbolId qty = (.invalidQuantity, st) := by
      unfold burn
      rw [if_pos h1]
    rw [hb]
    refine ⟨?_, ?_, fun _ => rfl⟩
    · simp
      omega
    · intro hok
      exact absurd hok (by simp)
  · cases hfs : findSymbol st symbolId with
    | none =>
      have hb : burn st uid symbolId qty = (.symbolNotFound, st) := by
        unfold burn
        rw [if_neg h1, hfs]
      rw [hb]
      refine ⟨?_, ?_, fun _ => rfl⟩
      · simp [hfs]
      · intro hok
        exact absurd hok (by simp)
    | some s0 =>
      by_cases h2 : st.pos uid symbolId < qty
      · have hb : burn st uid symbolId qty = (.insufficientShares, st) := by
          unfold burn
          rw [if_neg h1, hfs, if_pos h2]
        rw [hb]
        refine ⟨?_, ?_, fun _ => rfl⟩
        · simp
          omega
        · intro hok
          exact absurd hok (by simp)
      · have hb : burn st uid symbolId qty =
            (.ok, { adjPos st uid symbolId (-qty) with
              symbols := (adjPos st uid symbolId (-qty)).symbols.map fun s =>
                if s.id = symbolId
                then { s with outstanding := s.outstanding - qty } else s }) := by
          unfold burn
          rw [if_neg h1, hfs, if_neg h2]
        rw [hb]
        refine ⟨?_, ?_, ?_⟩
        · simp [hfs]
          omega
        · refine fun _ => ⟨?_, ?_⟩
          · show (adjPos st uid symbolId (-qty)).pos uid symbolId = _
            simp [adjPos]
            omega
          · intro s hs
            have hss : s0 = s := Option.some.inj hs
            subst hss
            have hpres : ∀ s2 : SymbolRec,
                ((fun s2 => if s2.id = symbolId
                  then { s2 with outstanding := s2.outstanding - qty } else s2) s2).id
                  = s2.id := by
              intro s2
              by_cases hid : s2.id = symbolId <;> simp [hid]
            have hfind : st.symbols.find? (fun s2 => decide (s2.id = symbolId)) = some s0 := hfs
            have hid : s0.id = symbolId := by
              have := List.find?_some hfind
              simpa using this
            show (st.symbols.map (fun s2 => if s2.id = symbolId
                then { s2 with outstanding := s2.outstanding - qty } else s2)).find?
                (fun s2 => decide (s2.id = symbolId)) = _
            rw [find?_map_preserving _ _ _ hpres, hfind]
            simp [hid]
        · intro hok
          exact absurd rfl hok

/-- C8 amended, witness: the burn scenario instantiates the characterization
(the acceptance direction and the state updates). -/
theorem burnCharacterization_witness :
    (0 < (15 : Int) ∧ (findSymbol stBurn 1).isSome ∧ (15 : Int) ≤ stBurn.pos 1 1) ∧
    (burn stBurn 1 1 15).1 = .ok ∧
    (burn stBurn 1 1 15).2.pos 1 1 = stBurn.pos 1 1 - 15 := by
  have h := burnCharacterization stBurn 1 1 15
  have hok : (burn stBurn 1 1 15).1 = .ok := h.1.mpr (by decide)
  exact ⟨by decide, hok, (h.2.1 hok).1⟩

/-! ## Lemmas about validation and the submission pipeline -/

theorem side_ne_opposite : ∀ sd : Side, sd.opposite ≠ sd := by
  intro sd
  cases sd <;> simp [Side.opposite]

/-- Shape of a successfully validated request. -/
theorem validate_ok_shape {req : OrderReq} {v : ValidReq} (h : validate req = .ok v) :
    v.symbolId = req.symbolId ∧
    v.ty = normalizeType req.otype ∧
    v.quantity = req.quantity.toNat ∧
    0 < v.quantity ∧
    (jsLower req.side = "buy" ∨ jsLower req.side = "sell") ∧
    v.side = (if jsLower req.side = "buy" then Side.buy else Side.sell) ∧
    (v.ty = "limit" → ∃ p, req.price = some p ∧ 0 < p ∧ v.price = some p) ∧
    (v.ty ≠ "limit" → v.price = none) := by
  simp only [validate] at h
  by_cases h1 : req.symbolId = 0 ∨ jsLower req.side = "" ∨ req.quantity ≤ 0
  · rw [if_pos h1] at h
    exact absurd h (by simp)
  · rw [if_neg h1] at h
    push_neg at h1
    by_cases h2 : jsLower req.side = "buy" ∨ jsLower req.side = "sell"
    · rw [if_pos h2] at h
      by_cases h3 : normalizeType req.otype = "limit"
      · rw [if_pos h3] at h
        split at h
        · exact absurd h (by simp)
        · rename_i p hp
          split at h
          · exact absurd h (by simp)
          · rename_i h4
            cases h
            refine ⟨rfl, rfl, rfl, by show 0 < req.quantity.toNat; omega, h2, rfl, ?_, ?_⟩
            · exact fun _ => ⟨p, hp, by omega, rfl⟩
            · intro hne
              exact absurd h3 hne
      · rw [if_neg h3] at h
        cases h
        refine ⟨rfl, rfl, rfl, by show 0 < req.quantity.toNat; omega, h2, rfl, ?_, fun _ => rfl⟩
        intro hl
        exact absurd hl h3
    · rw [if_neg h2] at h
      exact absurd h (by simp)

theorem crossCheck_of_not_limit {st : ExchangeState} {v : ValidReq}
    (h : v.ty ≠ "limit") : crossCheck st v = none := by
  unfold crossCheck
  rw [if_neg h]

/-- The cross-prevention check fires exactly on a limit buy at or above the
best ask or a limit sell at or below the best bid, and can only produce the
CROSSES_BOOK rejection. -/
theorem crossCheck_characterization {st : ExchangeState} {v : ValidReq} {p : Int}
    (hty : v.ty = "limit") (hp : v.price = some p) :
    (∀ r, crossCheck st v = some r → r = .crossesBook) ∧
    (crossCheck st v = some .crossesBook ↔
      (v.side = .buy ∧ ∃ a, bestAsk st v.symbolId = some a ∧ a ≤ p) ∨
      (v.side = .sell ∧ ∃ b, bestBid st v.symbolId = some b ∧ p ≤ b)) := by
  unfold crossCheck
  rw [if_pos hty, hp]
  cases hs : v.side with
  | buy =>
    dsimp only
    cases ha : bestAsk st v.symbolId with
    | none => simp
    | some a =>
      dsimp only [Option.getD]
      by_cases hge : p ≥ a
      · rw [if_pos hge]
        simp
        omega
      · rw [if_neg hge]
        refine ⟨fun r hr => absurd hr (by simp), ?_⟩
        simp
        omega
  | sell =>
    dsimp only
    cases hb : bestBid st v.symbolId with
    | none => simp
    | some b =>
      dsimp only [Option.getD]
      by_cases hle : p ≤ b
      · rw [if_pos hle]
        simp
        omega
      · rw [if_neg hle]
        refine ⟨fun r hr => absurd hr (by simp), ?_⟩
        simp
        omega

/-- The resource checks can only produce fund or share rejections. -/
theorem resourceCheck_ne_crossesBook {st : ExchangeState} {uid : Nat} {v : ValidReq}
    {sym : SymbolRec} {r : Reject} (h : resourceCheck st uid v sym = some r) :
    r = .insufficientFunds ∨ r = .insufficientShares ∨ r = .insufficientFundsShort := by
  unfold resourceCheck at h
  cases hs : v.side with
  | buy =>
    rw [hs] at h
    dsimp only at h
    split at h
    · split at h
      · cases h
        exact Or.inl rfl
      · exact absurd h (by simp)
    · exact absurd h (by simp)
  | sell =>
    rw [hs] at h
    dsimp only at h
    by_cases c1 : (v.quantity : Int) > st.pos uid v.symbolId
    · rw [if_pos c1] at h
      by_cases c2 : (v.quantity : Int) -
          (if st.pos uid v.symbolId > 0 then st.pos uid v.symbolId else 0) > sym.outstanding
      · rw [if_pos c2] at h
        cases h
        exact Or.inr (Or.inl rfl)
      · rw [if_neg c2] at h
        by_cases c3 : st.cash uid <
            (if v.ty = "limit" then v.price.getD 0 else sym.lastPrice.getD 0) *
              ((v.quantity : Int) -
                (if st.pos uid v.symbolId > 0 then st.pos uid v.symbolId else 0))
        · rw [if_pos c3] at h
          cases h
          exact Or.inr (Or.inr rfl)
        · rw [if_neg c3] at h
          exact absurd h (by simp)
    · rw [if_neg c1] at h
      exact absurd h (by simp)

theorem reservePhase_orders (st : ExchangeState) (uid : Nat) (v : ValidReq)
    (userPos : Int) : (reservePhase st uid v userPos).orders = st.orders := by
  unfold reservePhase
  dsimp only
  split_ifs <;> rfl

/-- Market orders reserve nothing. -/
theorem reservePhase_of_not_limit {st : ExchangeState} {uid : Nat} {v : ValidReq}
    {userPos : Int} (h : v.ty ≠ "limit") : reservePhase st uid v userPos = st := by
  unfold reservePhase
  rw [if_neg (by simp [h]), if_neg (by simp [h])]

theorem placeOrder_of_validate_error {st : ExchangeState} {uid : Nat} {req : OrderReq}
    {r : Reject} (h : validate req = .error r) : placeOrder st uid req = (.rejected r, st) := by
  simp only [placeOrder, h]

theorem placeOrder_of_cross {st : ExchangeState} {uid : Nat} {req : OrderReq}
    {v : ValidReq} {r : Reject} (hv : validate req = .ok v)
    (hc : crossCheck st v = some r) : placeOrder st uid req = (.rejected r, st) := by
  simp only [placeOrder, hv, hc]

theorem placeOrder_of_no_symbol {st : ExchangeState} {uid : Nat} {req : OrderReq}
    {v : ValidReq} (hv : validate req = .ok v) (hc : crossCheck st v = none)
    (hs : findSymbol st v.symbolId = none) :
    placeOrder st uid req = (.rejected .symbolNotFound, st) := by
  simp only [placeOrder, hv, hc, hs]

theorem placeOrder_of_resource {st : ExchangeState} {uid : Nat} {req : OrderReq}
    {v : ValidReq} {sym : SymbolRec} {r : Reject} (hv : validate req = .ok v)
    (hc : crossCheck st v = none) (hs : findSymbol st v.symbolId = some sym)
    (hr : resourceCheck st uid v sym = some r) :
    placeOrder st uid req = (.rejected r, st) := by
  simp only [placeOrder, hv, hc, hs, hr]

theorem placeOrder_of_checks_market {st : ExchangeState} {uid : Nat} {req : OrderReq}
    {v : ValidReq} {sym : SymbolRec} (hv : validate req = .ok v)
    (hty : v.ty = "market")
    (hc : crossCheck st v = none) (hs : findSymbol st v.symbolId = some sym)
    (hr : resourceCheck st uid v sym = none) :
    placeOrder st uid req = doMarket st uid v sym (st.cash uid) := by
  simp only [placeOrder, hv, hc, hs, hr]
  rw [if_pos hty, reservePhase_of_not_limit (by rw [hty]; decide)]

theorem placeOrder_of_checks_limit {st : ExchangeState} {uid : Nat} {req : OrderReq}
    {v : ValidReq} {sym : SymbolRec} (hv : validate req = .ok v)
    (hty : v.ty ≠ "market")
    (hc : crossCheck st v = none) (hs : findSymbol st v.symbolId = some sym)
    (hr : resourceCheck st uid v sym = none) :
    placeOrder st uid req =
      doLimit (reservePhase st uid v (st.pos uid v.symbolId)) uid v sym
        (st.pos uid v.symbolId) := by
  simp only [placeOrder, hv, hc, hs, hr]
  rw [if_neg hty]

/-- The limit branch always reports acceptance. -/
theorem doLimit_accepted (st1 : ExchangeState) (uid : Nat) (v : ValidReq)
    (sym : SymbolRec) (userPos : Int) :
    ∃ s e, (doLimit st1 uid v sym userPos).1 = .accepted s e := by
  unfold doLimit
  exact ⟨_, _, rfl⟩

/-- The market branch either rejects with NO_LIQUIDITY (returning the
original state) or reports acceptance with the executed fills. -/
theorem doMarket_shape (st : ExchangeState) (uid : Nat) (v : ValidReq)
    (sym : SymbolRec) (userCash : Int) :
    (doMarket st uid v sym userCash = (.rejected .noLiquidity, st) ∧
      (marketRun st uid v userCash).2.2 = []) ∨
    ((marketRun st uid v userCash).2.2 ≠ [] ∧
      doMarket st uid v sym userCash =
        (.accepted (if (marketRun st uid v userCash).2.1 = 0 then .FILLED else .PARTIAL)
            (marketRun st uid v userCash).2.2,
          setPrices (marketRun st uid v userCash).1 v.symbolId
            (sym.lastPrice.getD (lastExecPrice (marketRun st uid v userCash).2.2))
            (lastExecPrice (marketRun st uid v userCash).2.2))) := by
  by_cases h : (marketRun st uid v userCash).2.2 = []
  · left
    refine ⟨?_, h⟩
    unfold doMarket
    rw [if_pos h]
  · right
    refine ⟨h, ?_⟩
    unfold doMarket
    rw [if_neg h]

/-! ## Candidate-set lemmas -/

theorem openOrders_eq_of_orders {st st2 : ExchangeState} (h : st2.orders = st.orders)
    (sym : Nat) (sd : Side) : openOrders st2 sym sd = openOrders st sym sd := by
  unfold openOrders
  rw [h]

/-- Inserting the new order does not change the opposite side of the book. -/
theorem openOrders_insertNewOrder_opposite (st1 : ExchangeState) (uid : Nat)
    (v : ValidReq) (sym : Nat) :
    openOrders (insertNewOrder st1 uid v) sym v.side.opposite =
      openOrders st1 sym v.side.opposite := by
  unfold openOrders insertNewOrder
  dsimp only
  rw [List.filter_append]
  have hne : v.side ≠ v.side.opposite := Ne.symm (side_ne_opposite v.side)
  simp [hne]

theorem limitCandidates_congr {st st2 : ExchangeState} {sym : Nat} {ts : Side} {p : Int}
    (h : openOrders st2 sym ts.opposite = openOrders st sym ts.opposite) :
    limitCandidates st2 sym ts p = limitCandidates st sym ts p := by
  unfold limitCandidates
  rw [h]

/-- When the cross check passes for a limit buy, no OPEN sell crosses it. -/
theorem limitCandidates_empty_buy {st : ExchangeState} {v : ValidReq} {p : Int}
    (hty : v.ty = "limit") (hside : v.side = .buy) (hp : v.price = some p)
    (hc : crossCheck st v = none) :
    limitCandidates st v.symbolId .buy p = [] := by
  have hempty : (openOrders st v.symbolId .sell).filter
      (fun o => decide (o.price ≤ p)) = [] := by
    cases ha : bestAsk st v.symbolId with
    | none =>
      rw [bestAsk_eq_none_iff.mp ha]
      rfl
    | some a =>
      have hlt : p < a := by
        unfold crossCheck at hc
        rw [if_pos hty, hside] at hc
        dsimp only at hc
        rw [ha, hp] at hc
        dsimp only [Option.getD] at hc
        by_cases hge : p ≥ a
        · rw [if_pos hge] at hc
          exact absurd hc (by simp)
        · omega
      have hmin := (bestAsk_eq_some_iff.mp ha).2
      rw [List.filter_eq_nil_iff]
      intro o ho
      have := hmin o ho
      simp only [decide_eq_true_eq]
      omega
  unfold limitCandidates
  dsimp only [Side.opposite]
  rw [hempty]
  rfl

/-- When the cross check passes for a limit sell, no OPEN buy crosses it. -/
theorem limitCandidates_empty_sell {st : ExchangeState} {v : ValidReq} {p : Int}
    (hty : v.ty = "limit") (hside : v.side = .sell) (hp : v.price = some p)
    (hc : crossCheck st v = none) :
    limitCandidates st v.symbolId .sell p = [] := by
  have hempty : (openOrders st v.symbolId .buy).filter
      (fun o => decide (p ≤ o.price)) = [] := by
    cases hb : bestBid st v.symbolId with
    | none =>
      rw [bestBid_eq_none_iff.mp hb]
      rfl
    | some b =>
      have hlt : b < p := by
        unfold crossCheck at hc
        rw [if_pos hty, hside] at hc
        dsimp only at hc
        rw [hb, hp] at hc
        dsimp only [Option.getD] at hc
        by_cases hle : p ≤ b
        · rw [if_pos hle] at hc
          exact absurd hc (by simp)
        · omega
      have hmax := (bestBid_eq_some_iff.mp hb).2
      rw [List.filter_eq_nil_iff]
      intro o ho
      have := hmax o ho
      simp only [decide_eq_true_eq]
      omega
  unfold limitCandidates
  dsimp only [Side.opposite]
  rw [hempty]
  rfl

/-- A limit order whose candidate list is empty rests OPEN with no fills. -/
theorem doLimit_of_empty_candidates (st1 : ExchangeState) (uid : Nat) (v : ValidReq)
    (sym : SymbolRec) (userPos : Int) (hq : 0 < v.quantity)
    (hempty : limitCandidates (insertNewOrder st1 uid v) v.symbolId v.side
      (v.price.getD 0) = []) :
    ∃ stq, doLimit st1 uid v sym userPos = (.accepted .OPEN [], stq) := by
  have h1 : (doLimit st1 uid v sym userPos).1 = .accepted .OPEN [] := by
    unfold doLimit
    dsimp only
    cases hside : v.side with
    | buy =>
      rw [hside] at hempty
      dsimp only
      rw [hempty]
      dsimp only [limitBuyLoop]
      simp [Nat.lt_irrefl, Nat.pos_iff_ne_zero.mp hq]
    | sell =>
      rw [hside] at hempty
      dsimp only
      rw [hempty]
      dsimp only [limitSellLoop]
      simp [Nat.lt_irrefl, Nat.pos_iff_ne_zero.mp hq]
  exact ⟨(doLimit st1 uid v sym userPos).2, Prod.ext_iff.mpr ⟨h1, rfl⟩⟩

/-! ## Claim C9: accepted limit orders rest OPEN with no fills -/

/-- C9: in a serial execution an accepted limit submission never fills at
submission time: cross-prevention leaves the opposite candidate list empty,
so the handler reports orderStatus OPEN and an empty tradesExecuted list. -/
theorem acceptedLimitIsOpenNoFills (st : ExchangeState) (uid : Nat) (req : OrderReq)
    (s : RespStatus) (ex : List Exec)
    (hty : normalizeType req.otype = "limit")
    (hacc : (placeOrder st uid req).1 = .accepted s ex) :
    s = .OPEN ∧ ex = [] := by
  cases hv : validate req with
  | error r =>
    rw [placeOrder_of_validate_error hv] at hacc
    exact absurd hacc (by simp)
  | ok v =>
    obtain ⟨hsymb, hvty, hqeq, hq, hsides, hsideeq, hlim, hnlim⟩ := validate_ok_shape hv
    rw [hty] at hvty
    obtain ⟨p, hpreq, hp0, hvp⟩ := hlim hvty
    cases hc : crossCheck st v with
    | some r =>
      rw [placeOrder_of_cross hv hc] at hacc
      exact absurd hacc (by simp)
    | none =>
      cases hfs : findSymbol st v.symbolId with
      | none =>
        rw [placeOrder_of_no_symbol hv hc hfs] at hacc
        exact absurd hacc (by simp)
      | some sym =>
        cases hrc : resourceCheck st uid v sym with
        | some r =>
          rw [placeOrder_of_resource hv hc hfs hrc] at hacc
          exact absurd hacc (by simp)
        | none =>
          rw [placeOrder_of_checks_limit hv (by rw [hvty]; decide) hc hfs hrc] at hacc
          have hopen : openOrders (insertNewOrder (reservePhase st uid v
              (st.pos uid v.symbolId)) uid v) v.symbolId v.side.opposite =
              openOrders st v.symbolId v.side.opposite := by
            rw [openOrders_insertNewOrder_opposite]
            exact openOrders_eq_of_orders
              (reservePhase_orders st uid v (st.pos uid v.symbolId)) _ _
          have hcand : limitCandidates (insertNewOrder (reservePhase st uid v
              (st.pos uid v.symbolId)) uid v) v.symbolId v.side (v.price.getD 0) = [] := by
            rw [limitCandidates_congr hopen, hvp]
            cases hside : v.side with
            | buy =>
              show limitCandidates st v.symbolId Side.buy p = []
              exact limitCandidates_empty_buy hvty hside hvp hc
            | sell =>
              show limitCandidates st v.symbolId Side.sell p = []
              exact limitCandidates_empty_sell hvty hside hvp hc
          obtain ⟨stq, hdl⟩ := doLimit_of_empty_candidates
            (reservePhase st uid v (st.pos uid v.symbolId)) uid v sym
            (st.pos uid v.symbolId) hq hcand
          rw [hdl] at hacc
          have h1 : RespStatus.OPEN = s := by
            injection hacc with ha hb
          have h2 : ([] : List Exec) = ex := by
            injection hacc with ha hb
          exact ⟨h1.symm, h2.symm⟩

/-- C9 witness: a concrete accepted limit buy on an empty book, reported
OPEN with no trades. -/
theorem acceptedLimitIsOpenNoFills_witness :
    normalizeType reqFresh.otype = "limit" ∧
    (placeOrder stFresh 3 reqFresh).1 = .accepted .OPEN [] ∧
    (RespStatus.OPEN = .OPEN ∧ ([] : List Exec) = []) :=
  ⟨by decide, by decide,
    acceptedLimitIsOpenNoFills stFresh 3 reqFresh .OPEN [] (by decide) (by decide)⟩

/-! ## Validation-success lemmas -/

/-- A well-formed limit request passes validation with this exact shape. -/
theorem validate_ok_of_limit {req : OrderReq} {p : Int}
    (hsym : req.symbolId ≠ 0) (hq : 0 < req.quantity)
    (hside : jsLower req.side = "buy" ∨ jsLower req.side = "sell")
    (hty : normalizeType req.otype = "limit")
    (hp : req.price = some p) (hp0 : 0 < p) :
    validate req = .ok
      { symbolId := req.symbolId,
        side := if jsLower req.side = "buy" then Side.buy else Side.sell,
        ty := "limit", price := some p, quantity := req.quantity.toNat } := by
  have hne : ¬(req.symbolId = 0 ∨ jsLower req.side = "" ∨ req.quantity ≤ 0) := by
    push_neg
    refine ⟨hsym, ?_, by omega⟩
    rcases hside with h | h <;> rw [h] <;> decide
  simp only [validate, hty, hp]
  rw [if_neg hne, if_pos hside, if_pos trivial, if_neg (by omega : ¬p ≤ 0)]

/-- A well-formed market request passes validation; the price field is
discarded (set to none) whether or not it was supplied. -/
theorem validate_ok_of_market {req : OrderReq}
    (hsym : req.symbolId ≠ 0) (hq : 0 < req.quantity)
    (hside : jsLower req.side = "buy" ∨ jsLower req.side = "sell")
    (hty : normalizeType req.otype = "market") :
    validate req = .ok
      { symbolId := req.symbolId,
        side := if jsLower req.side = "buy" then Side.buy else Side.sell,
        ty := "market", price := none, quantity := req.quantity.toNat } := by
  have hne : ¬(req.symbolId = 0 ∨ jsLower req.side = "" ∨ req.quantity ≤ 0) := by
    push_neg
    refine ⟨hsym, ?_, by omega⟩
    rcases hside with h | h <;> rw [h] <;> decide
  simp only [validate, hty]
  rw [if_neg hne, if_pos hside, if_neg (by decide)]

/-- A limit request with an absent or non-positive price is rejected with
the invalid-price error. -/
theorem validate_limit_bad_price {req : OrderReq}
    (hsym : req.symbolId ≠ 0) (hq : 0 < req.quantity)
    (hside : jsLower req.side = "buy" ∨ jsLower req.side = "sell")
    (hty : normalizeType req.otype = "limit")
    (hp : req.price = none ∨ ∃ p, req.price = some p ∧ p ≤ 0) :
    validate req = .error .invalidPrice := by
  have hne : ¬(req.symbolId = 0 ∨ jsLower req.side = "" ∨ req.quantity ≤ 0) := by
    push_neg
    refine ⟨hsym, ?_, by omega⟩
    rcases hside with h | h <;> rw [h] <;> decide
  simp only [validate, hty]
  rw [if_neg hne, if_pos hside, if_pos trivial]
  rcases hp with h | ⟨p, h, hp0⟩
  · rw [h]
  · rw [h]
    dsimp only
    rw [if_pos hp0]

/-! ## Claim C5: maker-maker cross prevention -/

/-- C5: a valid limit submission is rejected with CROSSES_BOOK exactly when
it is a buy at or above the best ask (the minimum price among OPEN sell
orders) or a sell at or below the best bid (the maximum price among OPEN buy
orders); the rejection leaves the state unchanged. In particular a limit
order strictly inside the spread, or on an empty opposite side, is not
rejected for crossing. -/
theorem limitCrossPrevention (st : ExchangeState) (uid : Nat) (req : OrderReq) (p : Int)
    (hsym : req.symbolId ≠ 0) (hq : 0 < req.quantity)
    (hside : jsLower req.side = "buy" ∨ jsLower req.side = "sell")
    (hty : normalizeType req.otype = "limit")
    (hp : req.price = some p) (hp0 : 0 < p) :
    ((placeOrder st uid req).1 = .rejected .crossesBook ↔
      (jsLower req.side = "buy" ∧ ∃ a, IsBestAsk st req.symbolId a ∧ a ≤ p) ∨
      (jsLower req.side = "sell" ∧ ∃ b, IsBestBid st req.symbolId b ∧ p ≤ b)) ∧
    ((placeOrder st uid req).1 = .rejected .crossesBook → (placeOrder st uid req).2 = st) := by
  have hv := validate_ok_of_limit hsym hq hside hty hp hp0
  set v : ValidReq :=
    { symbolId := req.symbolId,
      side := if jsLower req.side = "buy" then Side.buy else Side.sell,
      ty := "limit", price := some p, quantity := req.quantity.toNat } with hvdef
  obtain ⟨hc1, hc2⟩ := @crossCheck_characterization st v p rfl rfl
  have htrans : ((v.side = Side.buy ∧ ∃ a, bestAsk st v.symbolId = some a ∧ a ≤ p) ∨
      (v.side = Side.sell ∧ ∃ b, bestBid st v.symbolId = some b ∧ p ≤ b)) ↔
      ((jsLower req.side = "buy" ∧ ∃ a, IsBestAsk st req.symbolId a ∧ a ≤ p) ∨
       (jsLower req.side = "sell" ∧ ∃ b, IsBestBid st req.symbolId b ∧ p ≤ b)) := by
    rcases hside with h | h
    · have hv1 : v.side = Side.buy := by rw [hvdef]; simp [h]
      constructor
      · rintro (⟨_, a, ha, hap⟩ | ⟨hs2, _⟩)
        · exact Or.inl ⟨h, a, bestAsk_eq_some_iff.mp ha, hap⟩
        · exact absurd (hv1.symm.trans hs2) (by decide)
      · rintro (⟨_, a, ha, hap⟩ | ⟨hcontra, _⟩)
        · exact Or.inl ⟨hv1, a, bestAsk_eq_some_iff.mpr ha, hap⟩
        · exact absurd (h.symm.trans hcontra) (by decide)
    · have hv1 : v.side = Side.sell := by
        rw [hvdef]
        have hne : jsLower req.side ≠ "buy" := by rw [h]; decide
        simp [hne]
      constructor
      · rintro (⟨hs2, _⟩ | ⟨_, b, hb, hbp⟩)
        · exact absurd (hv1.symm.trans hs2) (by decide)
        · exact Or.inr ⟨h, b, bestBid_eq_some_iff.mp hb, hbp⟩
      · rintro (⟨hcontra, _⟩ | ⟨_, b, hb, hbp⟩)
        · exact absurd (h.symm.trans hcontra) (by decide)
        · exact Or.inr ⟨hv1, b, bestBid_eq_some_iff.mpr hb, hbp⟩
  cases hcc : crossCheck st v with
  | some r =>
    have hr := hc1 r hcc
    subst hr
    rw [placeOrder_of_cross hv hcc]
    refine ⟨?_, fun _ => rfl⟩
    constructor
    · intro _
      exact htrans.mp (hc2.mp hcc)
    · intro _
      rfl
  | none =>
    have hlhsne : (placeOrder st uid req).1 ≠ .rejected .crossesBook := by
      cases hfs : findSymbol st v.symbolId with
      | none =>
        rw [placeOrder_of_no_symbol hv hcc hfs]
        simp
      | some sym =>
        cases hrc : resourceCheck st uid v sym with
        | some r =>
          rw [placeOrder_of_resource hv hcc hfs hrc]
          rcases resourceCheck_ne_crossesBook hrc with hr | hr | hr <;> subst hr <;> simp
        | none =>
          rw [placeOrder_of_checks_limit hv
            (by show ("limit" : String) ≠ "market"; decide) hcc hfs hrc]
          obtain ⟨s2, e2, hde⟩ := doLimit_accepted
            (reservePhase st uid v (st.pos uid v.symbolId)) uid v sym
            (st.pos uid v.symbolId)
          rw [hde]
          simp
    refine ⟨?_, fun hcb => absurd hcb hlhsne⟩
    constructor
    · intro hcb
      exact absurd hcb hlhsne
    · intro hrhs
      have := hc2.mpr (htrans.mpr hrhs)
      rw [hcc] at this
      exact absurd this (by simp)

/-- C5 witness: with a resting sell 10@100, a buy limit 5@100 is rejected
with CROSSES_BOOK and the state is unchanged. -/
theorem limitCrossPrevention_witness :
    (reqCross.symbolId ≠ 0 ∧ 0 < reqCross.quantity ∧
      (jsLower reqCross.side = "buy" ∨ jsLower reqCross.side = "sell") ∧
      normalizeType reqCross.otype = "limit" ∧ reqCross.price = some 100 ∧
      (0 : Int) < 100) ∧
    (placeOrder stCross 2 reqCross).1 = .rejected .crossesBook ∧
    (placeOrder stCross 2 reqCross).2 = stCross := by
  have h := limitCrossPrevention stCross 2 reqCross 100 (by decide) (by decide)
    (Or.inl (by decide)) (by decide) (by decide) (by decide)
  have hrej : (placeOrder stCross 2 reqCross).1 = .rejected .crossesBook :=
    h.1.mpr (Or.inl ⟨by decide, 100, bestAsk_eq_some_iff.mp (by decide), by decide⟩)
  exact ⟨⟨by decide, by decide, Or.inl (by decide), by decide, by decide, by decide⟩,
    hrej, h.2 hrej⟩

/-! ## Claim C10: type normalization -/

/-- C10: an absent or empty type field is normalized to limit and the
submission is processed as a limit order (hence still rejected when the
price is absent or non-positive, with no state change), while a price
supplied together with a market type is silently discarded (the validated
request carries price none) instead of causing a rejection. -/
theorem typeDefaulting :
    normalizeType none = "limit" ∧
    normalizeType (some "") = "limit" ∧
    (∀ req : OrderReq, req.otype = none ∨ req.otype = some "" →
      validate req = validate { req with otype := some "limit" }) ∧
    (∀ (st : ExchangeState) (uid : Nat) (req : OrderReq),
      (req.otype = none ∨ req.otype = some "") →
      req.symbolId ≠ 0 → 0 < req.quantity →
      (jsLower req.side = "buy" ∨ jsLower req.side = "sell") →
      (req.price = none ∨ ∃ p, req.price = some p ∧ p ≤ 0) →
      placeOrder st uid req = (.rejected .invalidPrice, st)) ∧
    (∀ (req : OrderReq) (p : Int), req.otype = some "market" → req.price = some p →
      req.symbolId ≠ 0 → 0 < req.quantity →
      (jsLower req.side = "buy" ∨ jsLower req.side = "sell") →
      ∃ v, validate req = .ok v ∧ v.ty = "market" ∧ v.price = none) := by
  refine ⟨rfl, rfl, ?_, ?_, ?_⟩
  · intro req h
    have h1 : normalizeType req.otype = "limit" := by
      rcases h with h | h <;> rw [h] <;> rfl
    unfold validate
    rw [h1]
    rfl
  · intro st uid req h hsym hq hside hp
    have h1 : normalizeType req.otype = "limit" := by
      rcases h with h | h <;> rw [h] <;> rfl
    exact placeOrder_of_validate_error (validate_limit_bad_price hsym hq hside h1 hp)
  · intro req p hto hp hsym hq hside
    have h1 : normalizeType req.otype = "market" := by
      rw [hto]
      rfl
    exact ⟨_, validate_ok_of_market hsym hq hside h1, rfl, rfl⟩

/-- C10 witness: a request with no type field and no price is rejected with
the invalid-price error (it was processed as a limit order), and a market
request carrying price 77 validates with the price discarded. -/
theorem typeDefaulting_witness :
    (reqNoType.otype = none ∨ reqNoType.otype = some "") ∧
    placeOrder stFresh 3 reqNoType = (.rejected .invalidPrice, stFresh) ∧
    (∃ v, validate reqMarketPriced = .ok v ∧ v.ty = "market" ∧ v.price = none) := by
  have h := typeDefaulting
  refine ⟨Or.inl rfl, ?_, ?_⟩
  · exact h.2.2.2.1 stFresh 3 reqNoType (Or.inl rfl) (by decide) (by decide)
      (Or.inl (by decide)) (Or.inl rfl)
  · exact h.2.2.2.2 reqMarketPriced 77 rfl rfl (by decide) (by decide)
      (Or.inr (by decide))

/-! ## Claim C6: price-time priority of matching -/

/-- C6: the matching queries walk opposite-side OPEN resting orders in
price-time priority. The limit-buy candidates are exactly the OPEN sells at
price ≤ p in ascending price then ascending id; the limit-sell candidates
are exactly the OPEN buys at price ≥ p in descending price then ascending
id; a market order takes every opposite-side OPEN order in the same
priority order with no price bound; and every loop step fills exactly
min(residual, maker remaining) against the front candidate, so of two
same-side resting orders at equal price the smaller id is filled first. -/
theorem matchingPriceTimePriority (st : ExchangeState) (sym : Nat) (p : Int) :
    (∀ o, o ∈ limitCandidates st sym .buy p ↔
      (o ∈ st.orders ∧ o.symbolId = sym ∧ o.side = .sell ∧ o.status = .OPEN ∧
        o.price ≤ p)) ∧
    (limitCandidates st sym .buy p).Pairwise (prio .buy) ∧
    (∀ o, o ∈ limitCandidates st sym .sell p ↔
      (o ∈ st.orders ∧ o.symbolId = sym ∧ o.side = .buy ∧ o.status = .OPEN ∧
        p ≤ o.price)) ∧
    (limitCandidates st sym .sell p).Pairwise (prio .sell) ∧
    (∀ o, o ∈ marketCandidates st sym .buy ↔
      (o ∈ st.orders ∧ o.symbolId = sym ∧ o.side = .sell ∧ o.status = .OPEN)) ∧
    (marketCandidates st sym .buy).Pairwise (prio .buy) ∧
    (∀ o, o ∈ marketCandidates st sym .sell ↔
      (o ∈ st.orders ∧ o.symbolId = sym ∧ o.side = .buy ∧ o.status = .OPEN)) ∧
    (marketCandidates st sym .sell).Pairwise (prio .sell) ∧
    (∀ (uid : Nat) (sd : Side) (o : Order) (rest : List Order) (st2 : ExchangeState)
        (rem : Nat) (cashAvail : Int) (ex : List Exec),
      rem ≠ 0 → ¬(sd = .buy ∧ cashAvail < o.price * (min rem o.quantity : Nat)) →
      ∃ st3 c3, marketLoop uid sym sd (o :: rest) st2 rem cashAvail ex =
        marketLoop uid sym sd rest st3 (rem - min rem o.quantity) c3
          (ex ++ [⟨o.price, min rem o.quantity⟩])) ∧
    (∀ (uid newId : Nat) (o : Order) (rest : List Order) (st2 : ExchangeState)
        (rem : Nat) (ex : List Exec), rem ≠ 0 →
      ∃ st3, limitBuyLoop uid sym newId (o :: rest) st2 rem ex =
        limitBuyLoop uid sym newId rest st3 (rem - min rem o.quantity)
          (ex ++ [⟨o.price, min rem o.quantity⟩])) ∧
    (∀ (uid newId : Nat) (o : Order) (rest : List Order) (st2 : ExchangeState)
        (rem : Nat) (ex : List Exec), rem ≠ 0 →
      ∃ st3, limitSellLoop uid sym newId (o :: rest) st2 rem ex =
        limitSellLoop uid sym newId rest st3 (rem - min rem o.quantity)
          (ex ++ [⟨o.price, min rem o.quantity⟩])) := by
  refine ⟨?_, ?_, ?_, ?_, ?_, ?_, ?_, ?_, ?_, ?_, ?_⟩
  · intro o
    unfold limitCandidates
    rw [List.Perm.mem_iff (List.perm_insertionSort _ _), List.mem_filter, mem_openOrders]
    dsimp only
    rw [decide_eq_true_iff]
    tauto
  · exact List.sorted_insertionSort _ _
  · intro o
    unfold limitCandidates
    rw [List.Perm.mem_iff (List.perm_insertionSort _ _), List.mem_filter, mem_openOrders]
    dsimp only
    rw [decide_eq_true_iff]
    tauto
  · exact List.sorted_insertionSort _ _
  · intro o
    unfold marketCandidates
    rw [List.Perm.mem_iff (List.perm_insertionSort _ _), mem_openOrders]
    tauto
  · exact List.sorted_insertionSort _ _
  · intro o
    unfold marketCandidates
    rw [List.Perm.mem_iff (List.perm_insertionSort _ _), mem_openOrders]
    tauto
  · exact List.sorted_insertionSort _ _
  · intro uid sd o rest st2 rem cashAvail ex hrem hbreak
    simp only [marketLoop, if_neg hrem, if_neg hbreak]
    exact ⟨_, _, rfl⟩
  · intro uid newId o rest st2 rem ex hrem
    simp only [limitBuyLoop, if_neg hrem]
    exact ⟨_, rfl⟩
  · intro uid newId o rest st2 rem ex hrem
    simp only [limitSellLoop, if_neg hrem]
    exact ⟨_, rfl⟩

/-- C6 witness: the sell at 100 with id 1 is a market-buy candidate of the
example book, and one step of the market loop against the resting buy fills
min(residual, maker quantity). -/
theorem matchingPriceTimePriority_witness :
    oPrioSell1 ∈ marketCandidates stPrio 1 .buy ∧
    (∃ st3 c3, marketLoop 7 1 .sell (oPrioBuy :: []) stPrio 1 0 [] =
      marketLoop 7 1 .sell [] st3 (1 - min 1 oPrioBuy.quantity) c3
        ([] ++ [⟨oPrioBuy.price, min 1 oPrioBuy.quantity⟩])) := by
  have h := matchingPriceTimePriority stPrio 1 95
  refine ⟨?_, ?_⟩
  · exact (h.2.2.2.2.1 oPrioSell1).mpr (by decide)
  · exact h.2.2.2.2.2.2.2.2.1 7 .sell oPrioBuy [] stPrio 1 0 [] (by decide) (by decide)

/-! ## Claim C7: market-order liquidity handling -/

/-- The executed-fill list of the market loop only ever grows from the
accumulator. -/
theorem marketLoop_execs_extend (uid sym : Nat) (sd : Side) :
    ∀ (l : List Order) (st : ExchangeState) (rem : Nat) (cash : Int) (ex : List Exec),
      ∃ tail, (marketLoop uid sym sd l st rem cash ex).2.2 = ex ++ tail := by
  intro l
  induction l with
  | nil =>
    intro st rem cash ex
    exact ⟨[], (List.append_nil ex).symm⟩
  | cons o rest ih =>
    intro st rem cash ex
    by_cases hrem : rem = 0
    · refine ⟨[], ?_⟩
      simp only [marketLoop]
      rw [if_pos hrem, List.append_nil]
    · by_cases hbrk : sd = .buy ∧ cash < o.price * (min rem o.quantity : Nat)
      · refine ⟨[], ?_⟩
        simp only [marketLoop]
        rw [if_neg hrem, if_pos hbrk, List.append_nil]
      · obtain ⟨tail, htail⟩ := ih _ (rem - min rem o.quantity)
          (if sd = .buy then cash - o.price * (min rem o.quantity : Nat) else cash)
          (ex ++ [⟨o.price, min rem o.quantity⟩])
        refine ⟨⟨o.price, min rem o.quantity⟩ :: tail, ?_⟩
        simp only [marketLoop]
        rw [if_neg hrem, if_neg hbrk]
        rw [htail, List.append_assoc]
        rfl

/-- C7: a market order that produced zero fills is rejected with
NO_LIQUIDITY and the whole submission rolls back to the original state;
zero fills happen exactly when the opposite book has no OPEN orders or (for
a buy) the taker cannot afford even the first candidate fill; and a market
order with at least one fill commits, the buy loop stopping as soon as the
next fill would exceed the remaining available cash. -/
theorem marketNoLiquidity (st : ExchangeState) (uid : Nat) (req : OrderReq)
    (v : ValidReq) (sym : SymbolRec)
    (hv : validate req = .ok v) (hty : v.ty = "market")
    (hs : findSymbol st v.symbolId = some sym)
    (hr : resourceCheck st uid v sym = none) :
    ((placeOrder st uid req).1 = .rejected .noLiquidity ↔
      (marketRun st uid v (st.cash uid)).2.2 = []) ∧
    ((marketRun st uid v (st.cash uid)).2.2 = [] →
      placeOrder st uid req = (.rejected .noLiquidity, st)) ∧
    ((marketRun st uid v (st.cash uid)).2.2 = [] →
      marketCandidates st v.symbolId v.side = [] ∨
      ∃ o rest, marketCandidates st v.symbolId v.side = o :: rest ∧ v.side = .buy ∧
        st.cash uid < o.price * (min v.quantity o.quantity : Nat)) ∧
    (marketCandidates st v.symbolId v.side = [] →
      (marketRun st uid v (st.cash uid)).2.2 = []) ∧
    ((marketRun st uid v (st.cash uid)).2.2 ≠ [] →
      placeOrder st uid req =
        (.accepted (if (marketRun st uid v (st.cash uid)).2.1 = 0 then .FILLED
            else .PARTIAL) (marketRun st uid v (st.cash uid)).2.2,
          setPrices (marketRun st uid v (st.cash uid)).1 v.symbolId
            (sym.lastPrice.getD (lastExecPrice (marketRun st uid v (st.cash uid)).2.2))
            (lastExecPrice (marketRun st uid v (st.cash uid)).2.2))) ∧
    (∀ (o : Order) (rest : List Order) (st2 : ExchangeState) (rem : Nat)
        (cashAvail : Int) (ex : List Exec),
      rem ≠ 0 → cashAvail < o.price * (min rem o.quantity : Nat) →
      marketLoop uid v.symbolId .buy (o :: rest) st2 rem cashAvail ex =
        (st2, rem, ex)) := by
  have hcc : crossCheck st v = none := crossCheck_of_not_limit (by rw [hty]; decide)
  have hple : placeOrder st uid req = doMarket st uid v sym (st.cash uid) :=
    placeOrder_of_checks_market hv hty hcc hs hr
  have hq : 0 < v.quantity := (validate_ok_shape hv).2.2.2.1
  refine ⟨?_, ?_, ?_, ?_, ?_, ?_⟩
  · rcases doMarket_shape st uid v sym (st.cash uid) with ⟨heq, hnil⟩ | ⟨hne, heq⟩
    · rw [hple, heq]
      simp [hnil]
    · rw [hple, heq]
      simp [hne]
  · intro hnil
    rcases doMarket_shape st uid v sym (st.cash uid) with ⟨heq, _⟩ | ⟨hne, _⟩
    · rw [hple, heq]
    · exact absurd hnil hne
  · intro hnil
    cases hcand : marketCandidates st v.symbolId v.side with
    | nil => exact Or.inl rfl
    | cons o rest =>
      by_cases hbrk : v.side = .buy ∧
          st.cash uid < o.price * (min v.quantity o.quantity : Nat)
      · exact Or.inr ⟨o, rest, rfl, hbrk.1, hbrk.2⟩
      · exfalso
        unfold marketRun at hnil
        rw [hcand] at hnil
        simp only [marketLoop] at hnil
        rw [if_neg (by omega), if_neg hbrk] at hnil
        obtain ⟨tail, htail⟩ := marketLoop_execs_extend uid v.symbolId v.side rest _ _ _ _
        rw [htail] at hnil
        simp at hnil
  · intro hcand
    unfold marketRun
    rw [hcand]
    rfl
  · intro hne
    rcases doMarket_shape st uid v sym (st.cash uid) with ⟨_, hnil⟩ | ⟨_, heq⟩
    · exact absurd hnil hne
    · rw [hple, heq]
  · intro o rest st2 rem cashAvail ex hrem hcash
    simp only [marketLoop]
    rw [if_neg hrem]
    rw [if_pos ⟨trivial, hcash⟩]

/-- C7 witness: a market buy against an empty book is rejected with
NO_LIQUIDITY and the state is unchanged. -/
theorem marketNoLiquidity_witness :
    validate reqNoLiq = .ok vNoLiq ∧ vNoLiq.ty = "market" ∧
    findSymbol stNoLiq vNoLiq.symbolId = some symNoLiq ∧
    resourceCheck stNoLiq 4 vNoLiq symNoLiq = none ∧
    placeOrder stNoLiq 4 reqNoLiq = (.rejected .noLiquidity, stNoLiq) := by
  have h := marketNoLiquidity stNoLiq 4 reqNoLiq vNoLiq symNoLiq rfl (by decide)
    (by decide) (by decide)
  exact ⟨rfl, by decide, by decide, by decide, h.2.1 (by decide)⟩

end OrderBook
